/-
Verification of the Hero-Wars progression and status-effect core.

The definitions below are a shallow embedding of the Python sources:
  * `herowars/configs.py`    — the default exp curve (`exp_algorithm`);
  * `herowars/entities.py`   — `Entity`, `Hero`, `Skill` (levels, the
    exp-driven level-up loop of the `Hero.exp` setter, the administrative
    `Hero.level` setter, `Hero.execute_skills`, `Skill.execute_method`);
  * `herowars/commandlib.py` — the timed status-effect bookkeeping
    (`burn`/`freeze`/`noclip`/`jetpack` and their `_un*` expiry callbacks
    over the `_effects` kind-by-player sets) and `get_nearby_players`.

Python integers are embedded as `Int`, coordinates as `Int`.  A `raise`
that happens after the object was already mutated is modelled by returning
the post-state together with an error marker, so partial mutation stays
observable.  The external delayed-callback scheduler is out of scope (the
spec treats it as a collaborator): timer expiry is modelled as an explicit
transition (`expireEffect`) that runs the Python callback body.  Engine
calls on the external player handle (Ignite, freeze, ...) are recorded in
an ordered trace instead of being performed.
-/

import Mathlib

/-- `configs.exp_algorithm`: the default required-exp curve
`100 + level * 20`. -/
def exp_algorithm (level : Int) : Int :=
  100 + level * 20

/-- The errors raised by the embedded code (Python `ValueError`s).  The
constructors stand for the three `raise` sites in `entities.py`. -/
inductive HWError
  | negativeLevel
  | overMaxLevel
  | negativeExp
  deriving DecidableEq, Repr

/-- `entities.Entity`: only the mutable per-instance state (`self._level`).
The class attribute `max_level` is passed explicitly to the operations
that read it, since subclasses may override it (default `10000`). -/
structure Entity where
  level : Int
  deriving DecidableEq, Repr

/-- `Entity.max_level` class default. -/
def Entity.default_max_level : Int := 10000

/-- `Entity.__init__`: stores the given level with no validation. -/
def Entity.init (level : Int) : Entity :=
  ⟨level⟩

/-- The body of the `Entity.level` setter (`Entity.level.fset`): rejects a
negative level or a level above `max_level`, otherwise stores the level.
Returns the resulting `_level` plus an optional raised error; on error the
stored level is unchanged (the `raise` happens before any mutation). -/
def level_fset (max_level cur lvl : Int) : Int × Option HWError :=
  if lvl < 0 then (cur, some .negativeLevel)
  else if lvl > max_level then (cur, some .overMaxLevel)
  else (lvl, none)

/-- `Entity.level = lvl` on an entity. -/
def Entity.setLevel (max_level : Int) (e : Entity) (lvl : Int) :
    Entity × Option HWError :=
  let r := level_fset max_level e.level lvl
  (⟨r.1⟩, r.2)

/-- `entities.Hero`: the mutable progression state (`self._level`,
`self._exp`). -/
structure Hero where
  level : Int
  exp : Int
  deriving DecidableEq, Repr

/-- `Hero.required_exp` as a function of the level: `0` at or above
`max_level`, otherwise the configured curve `f` (`configs.exp_algorithm`
by default). -/
def required_exp (f : Int → Int) (max_level lvl : Int) : Int :=
  if max_level ≤ lvl then 0 else f lvl

/-- Result of a `Hero` mutator: the post-state (also on error, Python
objects keep mutations made before a `raise`), the `level_up` event
firings in order (each entry is the `level_gain` argument), and the
raised error, if any. -/
structure ExpResult where
  hero : Hero
  events : List Int
  error : Option HWError
  deriving DecidableEq, Repr

/-- The `while` loop of the `Hero.exp` setter, with explicit fuel.  Each
iteration requires `exp ≥ required_exp ∧ level < max_level`, subtracts
`required_exp(level)` from `exp` and increments `level`.  The guard allows
at most `max_level - level` iterations, which is exactly the fuel
`levelLoop` passes, so the fuel never runs out while the guard holds. -/
def levelLoopFuel (f : Int → Int) (max_level : Int) :
    Nat → Int → Int → Int × Int
  | 0, e, lv => (e, lv)
  | n + 1, e, lv =>
    if required_exp f max_level lv ≤ e ∧ lv < max_level then
      levelLoopFuel f max_level n (e - required_exp f max_level lv) (lv + 1)
    else (e, lv)

/-- The `while` loop of the `Hero.exp` setter on `(exp, level)`. -/
def levelLoop (f : Int → Int) (max_level e lv : Int) : Int × Int :=
  levelLoopFuel f max_level (max_level - lv).toNat e lv

/-- The `Hero.exp` setter (`entities.py`, `Hero.exp.setter`):
reject negative exp; at the level cap pin `_exp = 0` and return; if the
new exp equals the current one do nothing; otherwise store the new exp,
run the level-up loop, clamp at `max_level` (pinning `_exp = 0` there),
and fire `level_up` once with the cumulative gain if the level rose. -/
def Hero.setExp (f : Int → Int) (max_level : Int) (h : Hero) (exp : Int) :
    ExpResult :=
  if exp < 0 then ⟨h, [], some .negativeExp⟩
  else if max_level ≤ h.level then ⟨{ h with exp := 0 }, [], none⟩
  else if exp = h.exp then ⟨h, [], none⟩
  else
    let r := levelLoop f max_level exp h.level
    let hero2 : Hero := if max_level ≤ r.2 then ⟨max_level, 0⟩ else ⟨r.2, r.1⟩
    ⟨hero2, if h.level < hero2.level then [hero2.level - h.level] else [], none⟩

/-- The `Hero.level` setter (administrative override): first sets
`self._exp = 0`, then delegates to `Entity.level.fset`.  Note the exp
reset happens before the bound check, so it persists even when the check
raises.  No `level_up` event is fired (the events list is always `[]`,
there is no `fire` call in the source). -/
def Hero.setLevel (max_level : Int) (h : Hero) (lvl : Int) : ExpResult :=
  let h1 : Hero := { h with exp := 0 }
  let r := level_fset max_level h1.level lvl
  ⟨{ h1 with level := r.1 }, [], r.2⟩

/-- Event arguments (`**eargs`) passed along a dispatch, as a name/value
list; only their identity matters for the dispatch claims. -/
abbrev EArgs := List (String × Int)

/-- A record of one handler invocation: which skill object, which method
name, with which event arguments. -/
structure Invocation where
  sid : Nat
  method : String
  eargs : EArgs
  deriving DecidableEq, Repr

/-- A `Skill`/`Passive`/`Item` instance: an identity, its Hero-Wars level
(`Entity._level`), and the names under which its concrete class defines a
(truthy) attribute — the handlers `getattr(self.__class__, name, None)`
can find. -/
structure SkillObj where
  sid : Nat
  level : Int
  methods : List String
  deriving DecidableEq, Repr

/-- `Skill.execute_method`: look the name up on the concrete class; if a
(truthy) handler exists, invoke it with `self` and the event arguments,
otherwise do nothing.  The return value is the list of invocations made;
the function is total, so no error can be raised and no other state is
touched. -/
def SkillObj.execute_method (s : SkillObj) (name : String) (eargs : EArgs) :
    List Invocation :=
  if name ∈ s.methods then [⟨s.sid, name, eargs⟩] else []

/-- The skill/passive/item collections a `Hero` owns, in insertion
order. -/
structure HeroObjs where
  passives : List SkillObj
  skills : List SkillObj
  items : List SkillObj
  deriving DecidableEq, Repr

/-- `Hero.execute_skills`: every passive, then every skill whose level is
truthy (`if skill.level:`), then every item, each collection in order.
Returns the concatenated invocation record. -/
def HeroObjs.execute_skills (h : HeroObjs) (name : String) (eargs : EArgs) :
    List Invocation :=
  (h.passives.flatMap fun p => p.execute_method name eargs) ++
  (h.skills.flatMap fun s =>
    if s.level ≠ 0 then s.execute_method name eargs else []) ++
  (h.items.flatMap fun i => i.execute_method name eargs)

/-- The four effect kinds of `commandlib._effects`. -/
inductive EffectKind
  | burn
  | freeze
  | noclip
  | jetpack
  deriving DecidableEq, Repr

/-- An engine-level call on the external player handle. -/
inductive EngineAction
  | ignite
  | igniteLifetimeZero
  | setFreeze (b : Bool)
  | setNoclip (b : Bool)
  | setJetpack (b : Bool)
  deriving DecidableEq, Repr

/-- The engine-level activation each apply function performs first
(`player.call_input('Ignite')`, `player.freeze = True`, ...). -/
def applyAction : EffectKind → EngineAction
  | .burn => .ignite
  | .freeze => .setFreeze true
  | .noclip => .setNoclip true
  | .jetpack => .setJetpack true

/-- The engine-level revert each `_un*` callback performs when the
player's active-set becomes empty (`IgniteLifetime 0`,
`player.freeze = False`, ...). -/
def revertAction : EffectKind → EngineAction
  | .burn => .igniteLifetimeZero
  | .freeze => .setFreeze false
  | .noclip => .setNoclip false
  | .jetpack => .setJetpack false

/-- The status-effect bookkeeping state: `effects` is
`commandlib._effects` (kind → `player.index` → set of pending
timer-handle ids), `trace` records the engine-level calls in program
order, `nextHandle` supplies fresh ids for the `Delay` objects
`tick_delays.delay` creates (each call returns a distinct object). -/
structure EffectsState where
  effects : EffectKind → Nat → Finset Nat
  trace : List (Nat × EngineAction)
  nextHandle : Nat

/-- Module-load state: every active-set empty, nothing traced. -/
def initEffects : EffectsState :=
  ⟨fun _ _ => ∅, [], 0⟩

/-- The body shared by `burn`/`freeze`/`noclip`/`jetpack` (they differ
only in the engine action): unconditionally perform the engine-level
activation, create a fresh delay handle carrying the matching `_un*`
callback, and add it to `_effects[kind][player.index]`.  The scheduling
of the delay itself belongs to the external scheduler and is not
modelled. -/
def applyEffect (k : EffectKind) (p : Nat) (st : EffectsState) :
    EffectsState :=
  { effects := fun k2 p2 =>
      if k2 = k ∧ p2 = p then insert st.nextHandle (st.effects k p)
      else st.effects k2 p2,
    trace := st.trace ++ [(p, applyAction k)],
    nextHandle := st.nextHandle + 1 }

/-- The body shared by `_unburn`/`_unfreeze`/`_unnoclip`/`_unjetpack`:
`discard` the firing delay from `_effects[kind][player.index]` (a no-op
when absent), then perform the engine-level revert iff the set is now
empty. -/
def expireEffect (k : EffectKind) (p : Nat) (hdl : Nat)
    (st : EffectsState) : EffectsState :=
  let s2 := (st.effects k p).erase hdl
  { effects := fun k2 p2 => if k2 = k ∧ p2 = p then s2 else st.effects k2 p2,
    trace := st.trace ++ (if s2 = ∅ then [(p, revertAction k)] else []),
    nextHandle := st.nextHandle }

/-- A player as seen by `get_nearby_players`: an identity and a 3D
position, with integer coordinates standing in for the engine's
floats. -/
structure PlayerObj where
  pid : Nat
  x : Int
  y : Int
  z : Int
  deriving DecidableEq, Repr

/-- The squared Euclidean distance from a point to a player's location.
`Vector.get_distance` returns the (non-negative) Euclidean distance
`Real.sqrt (distSq ...)`; since the square root is monotone, the source's
comparisons `get_distance ≤ radius` (for `radius ≥ 0`) and the sort by
`get_distance` are computed here on squares, and the bridge to the real
distance is proved in the theorems below. -/
def distSq (pt : Int × Int × Int) (p : PlayerObj) : Int :=
  (p.x - pt.1) ^ 2 + (p.y - pt.2.1) ^ 2 + (p.z - pt.2.2) ^ 2

/-- The filtering loop of `get_nearby_players`: keep the candidates whose
distance to the point is `≤ radius`, in candidate order, counting one
`get_distance` evaluation per candidate. -/
def filterNear (pt : Int × Int × Int) (radius : Int) :
    List PlayerObj → List PlayerObj × Nat
  | [] => ([], 0)
  | p :: ps =>
    let r := filterNear pt radius ps
    (if distSq pt p ≤ radius ^ 2 then p :: r.1 else r.1, r.2 + 1)

/-- Stable insertion of a player into a list sorted by distance to the
point: the new player goes after every already-present player at a
strictly smaller or equal distance. -/
def insertByDist (pt : Int × Int × Int) (p : PlayerObj) :
    List PlayerObj → List PlayerObj
  | [] => [p]
  | q :: qs =>
    if distSq pt p < distSq pt q then p :: q :: qs
    else q :: insertByDist pt p qs

/-- A stable ascending sort by distance to the point, standing in for
Python's stable `sorted(..., key=...)`: elements are taken left to right,
each inserted after every already-placed element of smaller or equal
key, so equal-key elements keep their input order. -/
def sortByDist (pt : Int × Int × Int) (l : List PlayerObj) :
    List PlayerObj :=
  l.foldl (fun acc p => insertByDist pt p acc) []

/-- `commandlib.get_nearby_players`: filter the candidates (one
`get_distance` per candidate) into a Python `set`, then sort the set by
`get_distance`.  A Python set has no specified iteration order, so the
order in which `sorted` receives the kept players is an explicit
parameter `setIter` (constrained to a permutation in the theorems).
`sorted` with a `key` evaluates the key function exactly once per
element, so the second component counts `candidates.length` distance
computations from the loop plus one more per kept player. -/
def get_nearby_players (pt : Int × Int × Int) (radius : Int)
    (candidates : List PlayerObj)
    (setIter : List PlayerObj → List PlayerObj) : List PlayerObj × Nat :=
  let f := filterNear pt radius candidates
  let iterated := setIter f.1
  (sortByDist pt iterated, f.2 + iterated.length)

/-- One iteration of the exp-setter loop: while the guard
`required_exp ≤ exp ∧ level < max_level` holds, the loop subtracts
`required_exp(level)` and increments `level`. -/
theorem levelLoop_step (f : Int → Int) (max_level e lv : Int)
    (hg : required_exp f max_level lv ≤ e ∧ lv < max_level) :
    levelLoop f max_level e lv =
      levelLoop f max_level (e - required_exp f max_level lv) (lv + 1) := by
  have hfuel : (max_level - lv).toNat = (max_level - (lv + 1)).toNat + 1 := by
    omega
  unfold levelLoop
  rw [hfuel]
  simp only [levelLoopFuel]
  rw [if_pos hg]

/-- The exp-setter loop stops as soon as the guard fails. -/
theorem levelLoop_exit (f : Int → Int) (max_level e lv : Int)
    (hg : ¬(required_exp f max_level lv ≤ e ∧ lv < max_level)) :
    levelLoop f max_level e lv = (e, lv) := by
  unfold levelLoop
  cases hn : (max_level - lv).toNat with
  | zero => rfl
  | succ n =>
    simp only [levelLoopFuel]
    rw [if_neg hg]

/-- Postcondition of the fueled loop when the fuel covers the remaining
levels: exp stays non-negative, the level never drops and never passes
`max lv max_level`, and on exit either `exp < required_exp(level)` or the
cap was reached. -/
theorem levelLoopFuel_post (f : Int → Int) (max_level : Int) (n : Nat) :
    ∀ (e lv : Int), 0 ≤ e → (max_level - lv).toNat ≤ n →
      0 ≤ (levelLoopFuel f max_level n e lv).1 ∧
      lv ≤ (levelLoopFuel f max_level n e lv).2 ∧
      (levelLoopFuel f max_level n e lv).2 ≤ max lv max_level ∧
      ((levelLoopFuel f max_level n e lv).1 <
          required_exp f max_level (levelLoopFuel f max_level n e lv).2 ∨
        max_level ≤ (levelLoopFuel f max_level n e lv).2) := by
  induction n with
  | zero =>
    intro e lv he hn
    have hcap : max_level ≤ lv := by omega
    exact ⟨he, le_refl lv, le_max_left lv max_level, Or.inr hcap⟩
  | succ n ih =>
    intro e lv he hn
    by_cases hg : required_exp f max_level lv ≤ e ∧ lv < max_level
    · have hrec := ih (e - required_exp f max_level lv) (lv + 1)
        (by omega) (by omega)
      simp only [levelLoopFuel, if_pos hg]
      exact ⟨hrec.1, by omega, by omega, hrec.2.2.2⟩
    · simp only [levelLoopFuel, if_neg hg]
      rcases not_and_or.mp hg with hlt | hcap
      · exact ⟨he, le_refl lv, le_max_left lv max_level, Or.inl (by omega)⟩
      · exact ⟨he, le_refl lv, le_max_left lv max_level, Or.inr (by omega)⟩

/-- Postcondition of `levelLoop` itself. -/
theorem levelLoop_post (f : Int → Int) (max_level e lv : Int) (he : 0 ≤ e) :
    0 ≤ (levelLoop f max_level e lv).1 ∧
    lv ≤ (levelLoop f max_level e lv).2 ∧
    (levelLoop f max_level e lv).2 ≤ max lv max_level ∧
    ((levelLoop f max_level e lv).1 <
        required_exp f max_level (levelLoop f max_level e lv).2 ∨
      max_level ≤ (levelLoop f max_level e lv).2) := by
  unfold levelLoop
  exact levelLoopFuel_post f max_level _ e lv he (le_refl _)

/-- C1: for every hero with `level < max_level` and every `newExp ≥ 0`
with `newExp ≠ exp`, the exp setter raises nothing, stores `newExp` and
runs the level-up loop — which repeatedly subtracts `required_exp(level)`
from the exp and increments the level by `1` exactly while
`exp ≥ required_exp(level) ∧ level < max_level` (the two loop equations
below) — then clamps `level = max_level, exp = 0` if the loop ended at or
above the cap; the `level_up` event fires exactly once, with the
cumulative gain `final level - old level`, iff the final level exceeds
the old one, never once per crossed level. -/
theorem C1_setExp_cumulative_level_up (f : Int → Int) (max_level : Int)
    (h : Hero) (e : Int) (h1 : h.level < max_level) (h2 : 0 ≤ e)
    (h3 : e ≠ h.exp) :
    (Hero.setExp f max_level h e).error = none ∧
    (Hero.setExp f max_level h e).hero =
      (if max_level ≤ (levelLoop f max_level e h.level).2 then
        (⟨max_level, 0⟩ : Hero)
      else
        ⟨(levelLoop f max_level e h.level).2,
         (levelLoop f max_level e h.level).1⟩) ∧
    (Hero.setExp f max_level h e).events =
      (if h.level < (Hero.setExp f max_level h e).hero.level then
        [(Hero.setExp f max_level h e).hero.level - h.level]
      else []) ∧
    (Hero.setExp f max_level h e).events.length ≤ 1 ∧
    (∀ e2 lv, required_exp f max_level lv ≤ e2 → lv < max_level →
      levelLoop f max_level e2 lv =
        levelLoop f max_level (e2 - required_exp f max_level lv) (lv + 1)) ∧
    (∀ e2 lv, ¬(required_exp f max_level lv ≤ e2 ∧ lv < max_level) →
      levelLoop f max_level e2 lv = (e2, lv)) := by
  have hc1 : ¬ e < 0 := by omega
  have hc2 : ¬ max_level ≤ h.level := by omega
  simp only [Hero.setExp, if_neg hc1, if_neg hc2, if_neg h3]
  refine ⟨trivial, trivial, trivial, ?_, ?_, ?_⟩
  · split <;> (try split) <;> simp
  · intro e2 lv ha hb
    exact levelLoop_step f max_level e2 lv ⟨ha, hb⟩
  · intro e2 lv hg
    exact levelLoop_exit f max_level e2 lv hg

/-- Witness for C1 at the default curve: a hero at level `0` granted
`250` exp crosses two thresholds (`100`, then `120`), ending at level `2`
with `30` exp, no error, and the event list has at most one entry. -/
theorem C1_setExp_cumulative_level_up_witness :
    (Hero.setExp exp_algorithm 10000 ⟨0, 0⟩ 250).error = none ∧
    (Hero.setExp exp_algorithm 10000 ⟨0, 0⟩ 250).events.length ≤ 1 ∧
    Hero.setExp exp_algorithm 10000 ⟨0, 0⟩ 250 = ⟨⟨2, 30⟩, [2], none⟩ := by
  have hth := C1_setExp_cumulative_level_up exp_algorithm 10000 ⟨0, 0⟩ 250
    (by decide) (by decide) (by decide)
  exact ⟨hth.1, hth.2.2.2.1, by decide⟩

/-- C5 counterexample: the claim quantifies over *every* starting hero
state, but the exp setter's `newExp == exp` early-out preserves a
starting state that already violates the invariant (the constructor does
not validate exp).  At level `0` with stored exp `100` (and
`required_exp(0) = 100`), setting exp to the same `100` satisfies the
claim's preconditions (`level < max_level`, `newExp ≥ 0`) yet leaves the
hero at `exp = 100 ≥ required_exp(level)` with `level ≠ max_level`. -/
theorem C5_counterexample :
    ((⟨0, 100⟩ : Hero)).level < 10000 ∧ (0 : Int) ≤ 100 ∧
    (Hero.setExp exp_algorithm 10000 ⟨0, 100⟩ 100).hero = ⟨0, 100⟩ ∧
    ¬((0 ≤ (Hero.setExp exp_algorithm 10000 ⟨0, 100⟩ 100).hero.exp ∧
        (Hero.setExp exp_algorithm 10000 ⟨0, 100⟩ 100).hero.exp <
          required_exp exp_algorithm 10000
            (Hero.setExp exp_algorithm 10000 ⟨0, 100⟩ 100).hero.level) ∨
      ((Hero.setExp exp_algorithm 10000 ⟨0, 100⟩ 100).hero.level = 10000 ∧
        (Hero.setExp exp_algorithm 10000 ⟨0, 100⟩ 100).hero.exp = 0)) := by
  decide

/-- C5 as amended: for every starting hero state with `level < max_level`
and every `newExp ≥ 0` such that `newExp ≠` the current exp — or such
that the starting state already satisfies the invariant — after setting
exp the hero satisfies `0 ≤ exp < required_exp(level)` or
`level = max_level ∧ exp = 0`; and `required_exp` equals `0` from
`max_level` on. -/
theorem C5_amended_exp_invariant (f : Int → Int) (max_level : Int)
    (h : Hero) (e : Int) (h1 : h.level < max_level) (h2 : 0 ≤ e)
    (h3 : e ≠ h.exp ∨
      (0 ≤ h.exp ∧ h.exp < required_exp f max_level h.level)) :
    ((0 ≤ (Hero.setExp f max_level h e).hero.exp ∧
        (Hero.setExp f max_level h e).hero.exp <
          required_exp f max_level (Hero.setExp f max_level h e).hero.level) ∨
      ((Hero.setExp f max_level h e).hero.level = max_level ∧
        (Hero.setExp f max_level h e).hero.exp = 0)) ∧
    (∀ lv, max_level ≤ lv → required_exp f max_level lv = 0) := by
  have hc1 : ¬ e < 0 := by omega
  have hc2 : ¬ max_level ≤ h.level := by omega
  refine ⟨?_, fun lv hlv => by simp [required_exp, hlv]⟩
  by_cases he : e = h.exp
  · rcases h3 with h3 | h3
    · exact absurd he h3
    · simp only [Hero.setExp, if_neg hc1, if_neg hc2, if_pos he]
      exact Or.inl h3
  · simp only [Hero.setExp, if_neg hc1, if_neg hc2, if_neg he]
    have hpost := levelLoop_post f max_level e h.level h2
    by_cases hcap : max_level ≤ (levelLoop f max_level e h.level).2
    · rw [if_pos hcap]
      exact Or.inr ⟨rfl, rfl⟩
    · rw [if_neg hcap]
      rcases hpost.2.2.2 with hlt | hge
      · exact Or.inl ⟨hpost.1, hlt⟩
      · exact absurd hge hcap

/-- Witness for the amended C5: granting `250` exp to a fresh hero leaves
`exp = 30 < required_exp(2) = 140`. -/
theorem C5_amended_exp_invariant_witness :
    (0 ≤ (Hero.setExp exp_algorithm 10000 ⟨0, 0⟩ 250).hero.exp ∧
      (Hero.setExp exp_algorithm 10000 ⟨0, 0⟩ 250).hero.exp <
        required_exp exp_algorithm 10000
          (Hero.setExp exp_algorithm 10000 ⟨0, 0⟩ 250).hero.level) ∨
    ((Hero.setExp exp_algorithm 10000 ⟨0, 0⟩ 250).hero.level = 10000 ∧
      (Hero.setExp exp_algorithm 10000 ⟨0, 0⟩ 250).hero.exp = 0) :=
  (C5_amended_exp_invariant exp_algorithm 10000 ⟨0, 0⟩ 250 (by decide)
    (by decide) (Or.inl (by decide))).1

/-- C6 counterexample: the administrative level setter is *not* atomic on
failure.  Setting level `-1` on a hero at level `5` with exp `50` raises
the negative-level error with the level unmodified, but the exp was
already zeroed before the bound check — a partial mutation. -/
theorem C6_counterexample :
    (Hero.setLevel 10000 ⟨5, 50⟩ (-1)).error = some .negativeLevel ∧
    (Hero.setLevel 10000 ⟨5, 50⟩ (-1)).hero.level = 5 ∧
    (Hero.setLevel 10000 ⟨5, 50⟩ (-1)).hero.exp = 0 ∧
    (Hero.setLevel 10000 ⟨5, 50⟩ (-1)).hero ≠ (⟨5, 50⟩ : Hero) := by
  decide

/-- C6 as amended: on an out-of-bounds level the error is raised
synchronously and the level is left unmodified, but the exp has already
been set to `0` (so the hero state is partially mutated on failure); on
success the setter stores the level with exp `0`; in no case is the
`level_up` event fired. -/
theorem C6_amended_admin_setLevel (max_level : Int) (h : Hero) (lvl : Int) :
    (Hero.setLevel max_level h lvl).events = [] ∧
    ((lvl < 0 ∨ max_level < lvl) →
      (Hero.setLevel max_level h lvl).error.isSome ∧
      (Hero.setLevel max_level h lvl).hero = ⟨h.level, 0⟩) ∧
    (0 ≤ lvl → lvl ≤ max_level →
      Hero.setLevel max_level h lvl = ⟨⟨lvl, 0⟩, [], none⟩) := by
  refine ⟨rfl, ?_, ?_⟩
  · intro hcase
    by_cases hneg : lvl < 0
    · simp [Hero.setLevel, level_fset, hneg]
    · have hover : max_level < lvl := by omega
      have hnotgt : lvl > max_level := hover
      simp [Hero.setLevel, level_fset, hneg, hnotgt]
  · intro hge hle
    have hneg : ¬ lvl < 0 := by omega
    have hover : ¬ lvl > max_level := by omega
    simp [Hero.setLevel, level_fset, hneg, hover]

/-- Witness for the amended C6 at a failing input. -/
theorem C6_amended_admin_setLevel_witness :
    (Hero.setLevel 10000 ⟨5, 50⟩ (-1)).error.isSome ∧
    (Hero.setLevel 10000 ⟨5, 50⟩ (-1)).hero = ⟨5, 0⟩ :=
  (C6_amended_admin_setLevel 10000 ⟨5, 50⟩ (-1)).2.1 (Or.inl (by decide))

/-- C7 counterexample: `Entity.__init__` performs no bound check, so
constructing an entity with level `-1` yields a live entity whose level
violates `0 ≤ level`, contradicting the claim that no way of
constructing an Entity yields a level outside the bound. -/
theorem C7_counterexample :
    (Entity.init (-1)).level = -1 ∧ ¬(0 ≤ (Entity.init (-1)).level) := by
  decide

/-- C7 as amended: the level *setter* enforces the bound — assigning a
negative level or one above `max_level` fails with the domain error and
leaves the level unchanged, while assigning any level within
`0 ≤ level ≤ max_level` (in particular exactly `max_level`) succeeds —
but the constructor stores its argument unchecked, so a freshly
constructed Entity can carry an out-of-bound level. -/
theorem C7_amended_level_bounds (max_level : Int) (e : Entity) (lvl : Int) :
    ((lvl < 0 ∨ max_level < lvl) →
      (Entity.setLevel max_level e lvl).2.isSome ∧
      (Entity.setLevel max_level e lvl).1 = e) ∧
    (0 ≤ lvl → lvl ≤ max_level →
      Entity.setLevel max_level e lvl = (⟨lvl⟩, none)) ∧
    (0 ≤ max_level →
      Entity.setLevel max_level e max_level = (⟨max_level⟩, none)) ∧
    (Entity.init lvl).level = lvl := by
  refine ⟨?_, ?_, ?_, rfl⟩
  · intro hcase
    by_cases hneg : lvl < 0
    · simp [Entity.setLevel, level_fset, hneg]
    · have hnotgt : lvl > max_level := by omega
      simp [Entity.setLevel, level_fset, hneg, hnotgt]
  · intro hge hle
    have hneg : ¬ lvl < 0 := by omega
    have hover : ¬ lvl > max_level := by omega
    simp [Entity.setLevel, level_fset, hneg, hover]
  · intro hge
    have hneg : ¬ max_level < 0 := by omega
    have hover : ¬ max_level > max_level := by omega
    simp [Entity.setLevel, level_fset, hneg, hover]

/-- Witness for the amended C7: both failing assignments and the
successful boundary assignment at `max_level = 10000`. -/
theorem C7_amended_level_bounds_witness :
    ((Entity.setLevel 10000 ⟨3⟩ (-1)).2.isSome ∧
      (Entity.setLevel 10000 ⟨3⟩ (-1)).1 = ⟨3⟩) ∧
    ((Entity.setLevel 10000 ⟨3⟩ 10001).2.isSome ∧
      (Entity.setLevel 10000 ⟨3⟩ 10001).1 = ⟨3⟩) ∧
    Entity.setLevel 10000 ⟨3⟩ 10000 = (⟨10000⟩, none) :=
  ⟨(C7_amended_level_bounds 10000 ⟨3⟩ (-1)).1 (Or.inl (by decide)),
   (C7_amended_level_bounds 10000 ⟨3⟩ 10001).1 (Or.inr (by decide)),
   (C7_amended_level_bounds 10000 ⟨3⟩ 10000).2.2.1 (by decide)⟩

/-- The truthiness dispatch over a skill list equals filtering for
strictly positive levels, provided no skill carries a negative level (the
validated setter never produces one). -/
theorem flatMap_truthy_eq_filter_pos (name : String) (eargs : EArgs) :
    ∀ l : List SkillObj, (∀ s ∈ l, 0 ≤ s.level) →
      (l.flatMap fun s =>
        if s.level ≠ 0 then s.execute_method name eargs else []) =
      ((l.filter fun s => 0 < s.level).flatMap fun s =>
        s.execute_method name eargs)
  | [], _ => rfl
  | a :: t, hs => by
    have ha : 0 ≤ a.level := hs a (List.mem_cons_self a t)
    have ht : ∀ s ∈ t, 0 ≤ s.level := fun s hm => hs s (List.mem_cons_of_mem a hm)
    have ih := flatMap_truthy_eq_filter_pos name eargs t ht
    rw [List.flatMap_cons, List.filter_cons, ih]
    by_cases h0 : a.level = 0
    · rw [if_neg (not_not_intro h0), List.nil_append, if_neg (by simp [h0])]
    · have hpos : 0 < a.level := lt_of_le_of_ne ha (Ne.symm h0)
      rw [if_pos h0, if_pos (by simp [hpos]), List.flatMap_cons]

/-- C8: for every hero and event name, `Hero.execute_skills` dispatches
the event to all passives first, then to exactly the skills with
`level > 0` (level-0 skills never fire; skill levels set through the
validated setter are never negative, which the hypothesis records), then
to all items — each group in its collection's insertion order. -/
theorem C8_execute_skills_order (h : HeroObjs) (name : String)
    (eargs : EArgs) (hs : ∀ s ∈ h.skills, 0 ≤ s.level) :
    HeroObjs.execute_skills h name eargs =
      (h.passives.flatMap fun p => p.execute_method name eargs) ++
      ((h.skills.filter fun s => 0 < s.level).flatMap fun s =>
        s.execute_method name eargs) ++
      (h.items.flatMap fun i => i.execute_method name eargs) := by
  unfold HeroObjs.execute_skills
  rw [flatMap_truthy_eq_filter_pos name eargs h.skills hs]

/-- Witness for C8: the level-0 skill (id 2) is skipped, the leveled
skill (id 3) fires between the passive (id 1) and the item (id 4). -/
theorem C8_execute_skills_order_witness :
    HeroObjs.execute_skills
      ⟨[⟨1, 0, ["on_kill"]⟩], [⟨2, 0, ["on_kill"]⟩, ⟨3, 2, ["on_kill"]⟩],
        [⟨4, 1, ["on_kill"]⟩]⟩
      ("on_kill") [] =
      [⟨1, "on_kill", []⟩, ⟨3, "on_kill", []⟩, ⟨4, "on_kill", []⟩] := by
  rw [C8_execute_skills_order _ _ _ (by decide)]
  decide

/-- C9: `execute_method` invokes the handler with `self` and the event
arguments exactly when the concrete type defines a handler named like the
event; otherwise it is a silent no-op — it returns no invocation, and by
totality of the embedding it raises no error and changes no state. -/
theorem C9_execute_method_dispatch (s : SkillObj) (name : String)
    (eargs : EArgs) :
    (name ∈ s.methods →
      s.execute_method name eargs = [⟨s.sid, name, eargs⟩]) ∧
    (name ∉ s.methods → s.execute_method name eargs = []) := by
  unfold SkillObj.execute_method
  constructor
  · intro hm
    rw [if_pos hm]
  · intro hm
    rw [if_neg hm]

/-- Witness for C9: a defined handler is invoked with the arguments, an
undefined one is a no-op. -/
theorem C9_execute_method_dispatch_witness :
    SkillObj.execute_method ⟨7, 1, ["player_death"]⟩ ("player_death")
      [("attacker", 2)] = [⟨7, "player_death", [("attacker", 2)]⟩] ∧
    SkillObj.execute_method ⟨7, 1, ["player_death"]⟩ ("player_jump") [] =
      [] :=
  ⟨(C9_execute_method_dispatch ⟨7, 1, ["player_death"]⟩ "player_death"
      [("attacker", 2)]).1 (by decide),
   (C9_execute_method_dispatch ⟨7, 1, ["player_death"]⟩ "player_jump"
      []).2 (by decide)⟩

/-- Expiring every pending handle of a player's active-set, in any order
(any duplicate-free enumeration of the set), appends exactly one revert
action to the trace — i.e. the revert happens at the last expiry and
nowhere earlier. -/
theorem expire_all_trace (k : EffectKind) (p : Nat) :
    ∀ (hs : List Nat) (st : EffectsState), hs.Nodup →
      hs.toFinset = st.effects k p → hs ≠ [] →
      ((hs.foldl fun s h2 => expireEffect k p h2 s) st).trace =
        st.trace ++ [(p, revertAction k)]
  | [], _, _, _, hne => absurd rfl hne
  | a :: t, st, hnd, hset, _ => by
    have hat : a ∉ t := (List.nodup_cons.mp hnd).1
    have hnt : t.Nodup := (List.nodup_cons.mp hnd).2
    have hmem : a ∉ t.toFinset := fun hc => hat (List.mem_toFinset.mp hc)
    have herase : (st.effects k p).erase a = t.toFinset := by
      rw [← hset, List.toFinset_cons, Finset.erase_insert hmem]
    have heff : (expireEffect k p a st).effects k p = t.toFinset := by
      simp [expireEffect, herase]
    by_cases hne2 : t = []
    · subst hne2
      have hempty : (st.effects k p).erase a = ∅ := by
        rw [herase]; rfl
      simp [expireEffect, hempty]
    · have hnonempty : (st.effects k p).erase a ≠ ∅ := by
        rw [herase]
        intro hc
        exact hne2 ((List.toFinset_eq_empty_iff t).mp hc)
      have htr : (expireEffect k p a st).trace = st.trace := by
        simp [expireEffect, hnonempty]
      have := expire_all_trace k p t (expireEffect k p a st) hnt heff.symm hne2
      simpa [List.foldl_cons, htr] using this

/-- C2: for every player and effect kind, the expiry callback (`_unburn`,
`_unfreeze`, ...) removes exactly its own timer handle from the player's
active-set (touching no other kind/player set), and performs the revert
action if and only if that removal leaves the active-set empty — never
while another timer for the same player and kind is still pending; hence
expiring all N pending timers, in any order, reverts exactly once, at the
last expiry. -/
theorem C2_expiry_reverts_iff_empty (k : EffectKind) (p hdl : Nat)
    (st : EffectsState) :
    (expireEffect k p hdl st).effects k p = (st.effects k p).erase hdl ∧
    (∀ k2 p2, ¬(k2 = k ∧ p2 = p) →
      (expireEffect k p hdl st).effects k2 p2 = st.effects k2 p2) ∧
    (expireEffect k p hdl st).trace =
      st.trace ++
        (if (st.effects k p).erase hdl = ∅ then [(p, revertAction k)]
         else []) ∧
    (∀ t2, t2 ∈ st.effects k p → t2 ≠ hdl →
      (expireEffect k p hdl st).trace = st.trace) ∧
    (∀ hs : List Nat, hs.Nodup → hs.toFinset = st.effects k p → hs ≠ [] →
      ((hs.foldl fun s h2 => expireEffect k p h2 s) st).trace =
        st.trace ++ [(p, revertAction k)]) := by
  refine ⟨by simp [expireEffect], ?_, rfl, ?_,
    fun hs hnd hset hne => expire_all_trace k p hs st hnd hset hne⟩
  · intro k2 p2 hne
    simp [expireEffect, hne]
  · intro t2 hmem hne
    have hstay : t2 ∈ (st.effects k p).erase hdl :=
      Finset.mem_erase.mpr ⟨hne, hmem⟩
    have hnonempty : (st.effects k p).erase hdl ≠ ∅ :=
      Finset.ne_empty_of_mem hstay
    simp [expireEffect, hnonempty]

/-- Witness for C2: with two pending burn timers (handles 0 and 1) on
player 1, expiring handle 0 performs no revert (handle 1 is still
pending), and expiring both in either order appends exactly one
revert. -/
theorem C2_expiry_reverts_iff_empty_witness :
    ((expireEffect .burn 1 0
        (applyEffect .burn 1 (applyEffect .burn 1 initEffects))).trace =
      (applyEffect .burn 1 (applyEffect .burn 1 initEffects)).trace) ∧
    ((([1, 0].foldl fun s h2 => expireEffect .burn 1 h2 s)
        (applyEffect .burn 1 (applyEffect .burn 1 initEffects))).trace =
      (applyEffect .burn 1 (applyEffect .burn 1 initEffects)).trace ++
        [(1, revertAction .burn)]) :=
  ⟨(C2_expiry_reverts_iff_empty .burn 1 0
      (applyEffect .burn 1 (applyEffect .burn 1 initEffects))).2.2.2.1
    1 (by decide) (by decide),
   (C2_expiry_reverts_iff_empty .burn 1 0
      (applyEffect .burn 1 (applyEffect .burn 1 initEffects))).2.2.2.2
    [1, 0] (by decide) (by decide) (by decide)⟩

/-- C3 counterexample: the engine-level apply action is *not* guarded by
an emptiness check.  Applying burn to player 1 twice calls the Ignite
input twice, although before the second call the player's burn active-set
already holds a pending timer. -/
theorem C3_counterexample :
    (applyEffect .burn 1 initEffects).effects .burn 1 ≠ ∅ ∧
    (applyEffect .burn 1 (applyEffect .burn 1 initEffects)).trace =
      [(1, .ignite), (1, .ignite)] := by
  constructor
  · decide
  · decide

/-- C3 as amended: every call to an apply function performs the
engine-level apply action, unconditionally — re-applying the effect while
timers are still active repeats the engine-level side effect (e.g.
re-ignites) — and adds the fresh timer handle to the player's
active-set. -/
theorem C3_amended_apply_unconditional (k : EffectKind) (p : Nat)
    (st : EffectsState) :
    (applyEffect k p st).trace = st.trace ++ [(p, applyAction k)] ∧
    (applyEffect k p st).effects k p =
      insert st.nextHandle (st.effects k p) := by
  exact ⟨rfl, by simp [applyEffect]⟩

/-- C4 counterexample: reverting is *not* idempotent.  After burn's only
timer (handle 0) has fired once — discarding itself and extinguishing —
firing the expiry callback again with the already-discarded handle finds
the active-set empty and performs the revert action a second time. -/
theorem C4_counterexample :
    0 ∉ (expireEffect .burn 1 0
        (applyEffect .burn 1 initEffects)).effects .burn 1 ∧
    (expireEffect .burn 1 0
        (expireEffect .burn 1 0 (applyEffect .burn 1 initEffects))).trace =
      [(1, .ignite), (1, .igniteLifetimeZero), (1, .igniteLifetimeZero)] := by
  constructor
  · decide
  · decide

/-- C4 as amended: invoking the expiry callback with a handle already
absent from the player's active-set leaves the active-set unchanged and
performs the revert action again exactly when the active-set is empty; in
particular it stays silent while other timers are still pending, but a
repeated fire against an empty active-set repeats the
(idempotent-in-effect) revert action. -/
theorem C4_amended_stale_expiry (k : EffectKind) (p hdl : Nat)
    (st : EffectsState) (hmem : hdl ∉ st.effects k p) :
    (expireEffect k p hdl st).effects k p = st.effects k p ∧
    (expireEffect k p hdl st).trace =
      st.trace ++
        (if st.effects k p = ∅ then [(p, revertAction k)] else []) ∧
    (st.effects k p ≠ ∅ →
      (expireEffect k p hdl st).trace = st.trace) := by
  have herase : (st.effects k p).erase hdl = st.effects k p :=
    Finset.erase_eq_self.mpr hmem
  refine ⟨by simp [expireEffect, herase], ?_, ?_⟩
  · simp only [expireEffect, herase]
  · intro hne
    simp [expireEffect, herase, hne]

/-- Witness for the amended C4: a stale expiry against an empty freeze
active-set changes no set and re-performs the unfreeze revert. -/
theorem C4_amended_stale_expiry_witness :
    (expireEffect .freeze 2 5 initEffects).effects .freeze 2 =
      initEffects.effects .freeze 2 ∧
    (expireEffect .freeze 2 5 initEffects).trace =
      initEffects.trace ++
        (if initEffects.effects .freeze 2 = ∅ then
          [(2, revertAction .freeze)]
         else []) :=
  ⟨(C4_amended_stale_expiry .freeze 2 5 initEffects (by decide)).1,
   (C4_amended_stale_expiry .freeze 2 5 initEffects (by decide)).2.1⟩

/-- Inserting a player by distance yields a permutation of consing it. -/
theorem insertByDist_perm (pt : Int × Int × Int) (p : PlayerObj) :
    ∀ l : List PlayerObj, (insertByDist pt p l).Perm (p :: l)
  | [] => List.Perm.refl _
  | q :: qs => by
    unfold insertByDist
    split
    · exact List.Perm.refl _
    · exact ((insertByDist_perm pt p qs).cons q).trans (List.Perm.swap p q qs)

/-- The sorting fold permutes the accumulator followed by the input. -/
theorem sortByDist_fold_perm (pt : Int × Int × Int) :
    ∀ l acc : List PlayerObj,
      (l.foldl (fun a p => insertByDist pt p a) acc).Perm (acc ++ l)
  | [], acc => by simp
  | p :: ps, acc => by
    rw [List.foldl_cons]
    refine (sortByDist_fold_perm pt ps (insertByDist pt p acc)).trans ?_
    refine (((insertByDist_perm pt p acc).append_right ps).trans ?_)
    exact List.perm_middle.symm

/-- `sortByDist` permutes its input. -/
theorem sortByDist_perm (pt : Int × Int × Int) (l : List PlayerObj) :
    (sortByDist pt l).Perm l :=
  sortByDist_fold_perm pt l []

/-- Inserting into a list that is ascending by distance keeps it
ascending. -/
theorem insertByDist_pairwise (pt : Int × Int × Int) (p : PlayerObj) :
    ∀ l : List PlayerObj,
      l.Pairwise (fun a b => distSq pt a ≤ distSq pt b) →
      (insertByDist pt p l).Pairwise (fun a b => distSq pt a ≤ distSq pt b)
  | [], _ => by simp [insertByDist]
  | q :: qs, hl => by
    rw [List.pairwise_cons] at hl
    unfold insertByDist
    by_cases hc : distSq pt p < distSq pt q
    · rw [if_pos hc]
      refine List.pairwise_cons.mpr ⟨?_, List.pairwise_cons.mpr hl⟩
      intro b hb
      rcases List.mem_cons.mp hb with rfl | hbq
      · exact le_of_lt hc
      · exact le_trans (le_of_lt hc) (hl.1 b hbq)
    · rw [if_neg hc]
      have hq : distSq pt q ≤ distSq pt p := le_of_not_lt hc
      refine List.pairwise_cons.mpr ⟨?_, insertByDist_pairwise pt p qs hl.2⟩
      intro b hb
      rcases List.mem_cons.mp ((insertByDist_perm pt p qs).mem_iff.mp hb)
        with rfl | hbq
      · exact hq
      · exact hl.1 b hbq

/-- The sorting fold keeps the accumulator ascending by distance. -/
theorem sortByDist_fold_pairwise (pt : Int × Int × Int) :
    ∀ l acc : List PlayerObj,
      acc.Pairwise (fun a b => distSq pt a ≤ distSq pt b) →
      (l.foldl (fun a p => insertByDist pt p a) acc).Pairwise
        (fun a b => distSq pt a ≤ distSq pt b)
  | [], _, h => h
  | p :: ps, acc, h =>
    sortByDist_fold_pairwise pt ps (insertByDist pt p acc)
      (insertByDist_pairwise pt p acc h)

/-- The filtering loop keeps exactly the in-range candidates, in
candidate order, and evaluates one distance per candidate. -/
theorem filterNear_spec (pt : Int × Int × Int) (radius : Int) :
    ∀ cs : List PlayerObj,
      (filterNear pt radius cs).1 =
        cs.filter (fun p => distSq pt p ≤ radius ^ 2) ∧
      (filterNear pt radius cs).2 = cs.length
  | [] => ⟨rfl, rfl⟩
  | p :: ps => by
    have ih := filterNear_spec pt radius ps
    by_cases hd : distSq pt p ≤ radius ^ 2
    · simp [filterNear, List.filter_cons, hd, ih.1, ih.2]
    · simp [filterNear, List.filter_cons, hd, ih.1, ih.2]

/-- The squared distance is non-negative. -/
theorem distSq_nonneg (pt : Int × Int × Int) (p : PlayerObj) :
    0 ≤ distSq pt p := by
  unfold distSq
  positivity

/-- Bridge to the source's comparison: the Euclidean distance
(`Vector.get_distance`) is within the radius iff the squared distance is
within the squared radius. -/
theorem sqrt_distSq_le_radius_iff (pt : Int × Int × Int) (p : PlayerObj)
    (radius : Int) (hr : 0 ≤ radius) :
    Real.sqrt ((distSq pt p : Int) : ℝ) ≤ (radius : ℝ) ↔
      distSq pt p ≤ radius ^ 2 := by
  rw [Real.sqrt_le_left (by exact_mod_cast hr)]
  constructor
  · intro h2
    exact_mod_cast h2
  · intro h2
    exact_mod_cast h2

/-- C10 counterexample.  Two failures of the claim at concrete inputs:
(i) the distance of a kept candidate is computed twice — once by the
filtering loop and once more by the sort key — not once (for the single
in-range player at `(3,4,0)` the count is `2`, not `1`); (ii) ties are
not broken by the candidates' stable iteration order: the kept players go
through a Python `set`, whose iteration order is unspecified — with the
legal set order that reverses insertion order, the two players tied at
distance `5` come back reversed. -/
theorem C10_counterexample :
    (get_nearby_players (0, 0, 0) 10 [⟨1, 3, 4, 0⟩] id).2 = 2 ∧
    ¬(get_nearby_players (0, 0, 0) 10 [⟨1, 3, 4, 0⟩] id).2 = 1 ∧
    (∀ l : List PlayerObj, l.reverse.Perm l) ∧
    (get_nearby_players (0, 0, 0) 10 [⟨1, 3, 4, 0⟩, ⟨2, 0, 0, 5⟩]
        List.reverse).1 =
      [⟨2, 0, 0, 5⟩, ⟨1, 3, 4, 0⟩] := by
  refine ⟨by decide, by decide, fun l => l.reverse_perm, by decide⟩

/-- C10 as amended: for every point, radius `≥ 0`, candidate pool and set
iteration order (any permutation of the kept players), the query returns
exactly those candidates whose Euclidean distance to the point is
`≤ radius`, sorted ascending by that distance; equal-distance players
appear in the (unspecified) iteration order of the intermediate set; the
distance is computed once per candidate while filtering and once more per
kept player as the sort key; and no match yields the empty list, not an
error. -/
theorem C10_amended_nearby (pt : Int × Int × Int) (radius : Int)
    (cs : List PlayerObj) (setIter : List PlayerObj → List PlayerObj)
    (hset : ∀ l, (setIter l).Perm l) (hr : 0 ≤ radius) :
    (get_nearby_players pt radius cs setIter).1.Perm
      (cs.filter fun p => distSq pt p ≤ radius ^ 2) ∧
    (∀ p, p ∈ (get_nearby_players pt radius cs setIter).1 ↔
      p ∈ cs ∧ Real.sqrt ((distSq pt p : Int) : ℝ) ≤ (radius : ℝ)) ∧
    (get_nearby_players pt radius cs setIter).1.Pairwise
      (fun a b => Real.sqrt ((distSq pt a : Int) : ℝ) ≤
        Real.sqrt ((distSq pt b : Int) : ℝ)) ∧
    (get_nearby_players pt radius cs setIter).2 =
      cs.length + (cs.filter fun p => distSq pt p ≤ radius ^ 2).length ∧
    ((cs.filter fun p => distSq pt p ≤ radius ^ 2) = [] →
      (get_nearby_players pt radius cs setIter).1 = []) := by
  have hfil := filterNear_spec pt radius cs
  have h1 : (get_nearby_players pt radius cs setIter).1 =
      sortByDist pt (setIter (filterNear pt radius cs).1) := rfl
  have h2 : (get_nearby_players pt radius cs setIter).2 =
      (filterNear pt radius cs).2 +
        (setIter (filterNear pt radius cs).1).length := rfl
  have hperm1 : (get_nearby_players pt radius cs setIter).1.Perm
      (cs.filter fun p => distSq pt p ≤ radius ^ 2) := by
    rw [h1, ← hfil.1]
    exact (sortByDist_perm pt _).trans (hset _)
  refine ⟨hperm1, ?_, ?_, ?_, ?_⟩
  · intro p
    rw [hperm1.mem_iff, List.mem_filter]
    constructor
    · rintro ⟨hin, hcond⟩
      refine ⟨hin, (sqrt_distSq_le_radius_iff pt p radius hr).mpr ?_⟩
      simpa using hcond
    · rintro ⟨hin, hcond⟩
      refine ⟨hin, ?_⟩
      simpa using (sqrt_distSq_le_radius_iff pt p radius hr).mp hcond
  · have hpw : (get_nearby_players pt radius cs setIter).1.Pairwise
        (fun a b => distSq pt a ≤ distSq pt b) := by
      rw [h1]
      exact sortByDist_fold_pairwise pt _ [] List.Pairwise.nil
    exact hpw.imp fun hab => Real.sqrt_le_sqrt (by exact_mod_cast hab)
  · rw [h2, hfil.2, (hset _).length_eq, hfil.1]
  · intro hnil
    have hp2 := hperm1
    rw [hnil] at hp2
    exact hp2.eq_nil

/-- Witness for the amended C10, on the spec's own example: three players
at distances 10, 50 and 150 from the origin with radius 100 — the result
is a permutation of the two in-range players and the distance count is
3 + 2. -/
theorem C10_amended_nearby_witness :
    (get_nearby_players (0, 0, 0) 100
        [⟨1, 30, 40, 0⟩, ⟨2, 90, 120, 0⟩, ⟨3, 6, 8, 0⟩] id).1.Perm
      ([⟨1, 30, 40, 0⟩, ⟨2, 90, 120, 0⟩, ⟨3, 6, 8, 0⟩].filter fun p =>
        distSq (0, 0, 0) p ≤ (100 : Int) ^ 2) ∧
    (get_nearby_players (0, 0, 0) 100
        [⟨1, 30, 40, 0⟩, ⟨2, 90, 120, 0⟩, ⟨3, 6, 8, 0⟩] id).2 =
      ([⟨1, 30, 40, 0⟩, ⟨2, 90, 120, 0⟩, ⟨3, 6, 8, 0⟩] :
        List PlayerObj).length +
      ([⟨1, 30, 40, 0⟩, ⟨2, 90, 120, 0⟩, ⟨3, 6, 8, 0⟩].filter fun p =>
        distSq (0, 0, 0) p ≤ (100 : Int) ^ 2).length :=
  ⟨(C10_amended_nearby (0, 0, 0) 100
      [⟨1, 30, 40, 0⟩, ⟨2, 90, 120, 0⟩, ⟨3, 6, 8, 0⟩] id
      (fun l => List.Perm.refl l) (by decide)).1,
   (C10_amended_nearby (0, 0, 0) 100
      [⟨1, 30, 40, 0⟩, ⟨2, 90, 120, 0⟩, ⟨3, 6, 8, 0⟩] id
      (fun l => List.Perm.refl l) (by decide)).2.2.2.1⟩
